import Mathlib

/-!
Verification development for the knowledge-debt-exchange matching backend.

The Python source is shallowly embedded: floats are modelled as exact
rationals, `np.sqrt` by a computable rational model `sqrtQ` (no theorem in
this file depends on the value `sqrtQ` takes on a positive input; only
`sqrtQ 0 = 0` and the surrounding control flow matter), async effects by
explicit state passing, and fallible operations by `Except`.  External
collaborators (the embedding provider, the judgment provider, the user
directory, the SHA-256 digest) are parameters of the embedded functions,
so every theorem quantifies over their behaviour.
-/

namespace KDX

/-! ## Rational vector arithmetic (model of the numpy calls) -/

/-- Model of `np.dot` on vectors (exact rational arithmetic). -/
def dotQ (a b : List ℚ) : ℚ :=
  (List.zipWith (fun x y => x * y) a b).sum

/-- Sum of squares of a vector; `np.linalg.norm v` is `sqrt (sumSq v)`. -/
def sumSq (a : List ℚ) : ℚ :=
  dotQ a a

/-- Integer square root (largest `k` with `k * k ≤ n`), written so that it
reduces inside the kernel. -/
def sqrtNat (n : Nat) : Nat :=
  ((List.range (n + 1)).filter (fun k => k * k ≤ n)).length - 1

/-- Computable model of `np.sqrt` on rationals: exact on perfect squares,
an under-approximation elsewhere.  The development only uses that
`sqrtQ 0 = 0`, mirroring that the float `sqrt` of `0.0` is `0.0`. -/
def sqrtQ (q : ℚ) : ℚ :=
  if 0 < q then (sqrtNat q.num.toNat : ℚ) / (sqrtNat q.den : ℚ) else 0

/-- `np.linalg.norm`, modelled as the rational square-root of the sum of
squares. -/
def normQ (a : List ℚ) : ℚ :=
  sqrtQ (sumSq a)

/-- `max(-1.0, min(1.0, x))`: the clamp applied by both cosine routines. -/
def clampQ (x : ℚ) : ℚ :=
  max (-1) (min 1 x)

/-! ## Similarity kernel (`backend/utils/similarity.py`) -/

/-- `cosine_similarity` of `utils/similarity.py`: validates emptiness and
dimensions (raising `ValueError`, modelled as `Except.error`), returns `0`
for a zero-norm operand, and clamps the quotient to `[-1, 1]`. -/
def cosine_similarity (vec_a vec_b : List ℚ) : Except String ℚ :=
  if vec_a.length = 0 ∨ vec_b.length = 0 then
    Except.error "Vectors cannot be empty"
  else if vec_a.length ≠ vec_b.length then
    Except.error "Vector dimension mismatch"
  else
    let norm_a := normQ vec_a
    let norm_b := normQ vec_b
    if norm_a = 0 ∨ norm_b = 0 then
      Except.ok 0
    else
      Except.ok (clampQ (dotQ vec_a vec_b / (norm_a * norm_b)))

/-- Stable descending sort by a rational score: the model of Python's
`list.sort(key=..., reverse=True)`.  Python's sort is stable, and a stable
sort w.r.t. a total preorder is uniquely determined, so insertion sort
w.r.t. "score of the left argument is at least score of the right" is an
exact model. -/
def sortDescBy {α : Type} (score : α → ℚ) (l : List α) : List α :=
  List.insertionSort (fun a b => score b ≤ score a) l

/-- `batch_cosine_similarity` of `utils/similarity.py`: empty corpus gives
`[]`; a zero-norm query scores every corpus entry `0.0` (and already
truncates to `min top_k |corpus|`); otherwise each corpus vector is scored
(zero-norm entries score `0.0`, others get the clamped dot product of the
normalized vectors), the indexed list is stably sorted descending by score
and truncated to `top_k`. -/
def batch_cosine_similarity (query_vec : List ℚ) (corpus_vecs : List (List ℚ))
    (top_k : Nat) : List (Nat × ℚ) :=
  if corpus_vecs = [] then []
  else if normQ query_vec = 0 then
    (List.range (min top_k corpus_vecs.length)).map (fun i => (i, (0 : ℚ)))
  else
    let query_normalized := query_vec.map (fun x => x / normQ query_vec)
    let similarities := corpus_vecs.enum.map (fun p =>
      if normQ p.2 = 0 then (p.1, (0 : ℚ))
      else (p.1, clampQ (dotQ query_normalized (p.2.map (fun x => x / normQ p.2)))))
    (sortDescBy (fun x => x.2) similarities).take top_k

/-! ## Embedding cache (`backend/services/embedding_service.py`) -/

/-- One document of the `embeddings_cache` collection, as per the schema in
the `EmbeddingService` docstring.  Timestamps are abstract ticks. -/
structure CacheEntry where
  model : String
  textHash : String
  dim : Nat
  vector : List ℚ
  createdAt : Nat
  updatedAt : Nat
deriving Repr, DecidableEq

/-- Whitespace normalization performed by `sha256_text`:
`" ".join(text.strip().split())`, i.e. split on whitespace runs, drop empty
pieces, rejoin with single spaces.  Implemented over `List Char` so it
reduces in the kernel. -/
def splitWsAux (cur : List Char) : List Char → List (List Char)
  | [] => if cur = [] then [] else [cur.reverse]
  | c :: cs =>
    if c.isWhitespace then
      if cur = [] then splitWsAux [] cs else cur.reverse :: splitWsAux [] cs
    else
      splitWsAux (c :: cur) cs

/-- Join word chunks with single spaces (model of `" ".join(words)`). -/
def joinWs : List (List Char) → List Char
  | [] => []
  | [w] => w
  | w :: ws => w ++ ' ' :: joinWs ws

/-- `" ".join(text.strip().split())`. -/
def normalizeWs (text : String) : String :=
  String.mk (joinWs (splitWsAux [] text.toList))

/-- `sha256_text`: prefix the digest of the whitespace-normalized text with
"sha256:".  The digest itself is an external primitive, passed in as the
function `hash`. -/
def sha256_text (hash : String → String) (text : String) : String :=
  "sha256:" ++ hash (normalizeWs text)

/-- Outcome of `EmbeddingService.get_or_create`: the returned vector, the
cache entry stored under the key afterwards, and whether the embedding
provider was invoked. -/
structure GocResult where
  vector : List ℚ
  cache : Option CacheEntry
  providerCalled : Bool
deriving Repr, DecidableEq

/-- The miss continuation of `get_or_create`: call the provider on
`[text]`, take the single vector, build the upsert document (preserving
`createdAt` of an existing entry), and write it.
`MongoEmbeddingCacheRepo.upsert` logs a write failure and then re-raises,
and `get_or_create` does not catch it, so a failing write (modelled by
`upsertOk = false`) propagates as an error. -/
def goc_miss (modelName textHash : String) (embed : String → List ℚ)
    (upsertOk : Bool) (now : Nat) (cached : Option CacheEntry) (text : String) :
    Except String GocResult :=
  let vec := embed text
  let doc : CacheEntry :=
    { model := modelName
      textHash := textHash
      dim := vec.length
      vector := vec
      updatedAt := now
      createdAt := match cached with
        | some e => e.createdAt
        | none => now }
  if upsertOk then Except.ok ⟨vec, some doc, true⟩
  else Except.error "Error upserting embedding"

/-- `EmbeddingService.get_or_create` for a single key, with the cache state
for that key passed explicitly.  A hit requires an entry whose `model`
matches the provider model, whose `textHash` matches the hash of the
normalized text, and whose vector is a non-empty list; it returns the
stored vector without touching the provider or the store. -/
def get_or_create (modelName : String) (hash : String → String)
    (embed : String → List ℚ) (upsertOk : Bool) (now : Nat)
    (cached : Option CacheEntry) (text : String) : Except String GocResult :=
  let textHash := sha256_text hash text
  match cached with
  | some e =>
    if e.model = modelName ∧ e.textHash = textHash ∧ e.vector ≠ [] then
      Except.ok ⟨e.vector, some e, false⟩
    else
      goc_miss modelName textHash embed upsertOk now (some e) text
  | none => goc_miss modelName textHash embed upsertOk now none text

/-- The static `EmbeddingService.cosine_similarity` (distinct from the
similarity kernel's `cosine_similarity`): no emptiness or dimension
validation, `0.0` for a zero-norm operand, clamped quotient otherwise.
It is total: there is no error branch at all. -/
def embedding_cosine_similarity (a b : List ℚ) : ℚ :=
  let na := normQ a
  let nb := normQ b
  if na = 0 ∨ nb = 0 then 0
  else clampQ (dotQ a b / (na * nb))

/-! ## Judgment adapter (`backend/services/llm_service.py`) -/

/-- The structured verdict produced by `LLMService.analyze_match`
(the `timestamp` metadata field, a wall-clock string, is omitted from the
model). -/
structure Analysis where
  adjusted_score : ℚ
  can_help : Bool
  confidence : ℚ
  reasoning : String
  explanation : String
  prerequisites_met : Bool
  skill_level_match : Bool
  llm_model : String
deriving Repr, DecidableEq

/-- `LLMService._fallback_analysis`: the deterministic verdict used when
the provider call or response parsing fails.  A pure record construction:
it cannot fail. -/
def fallback_analysis (embedding_score : ℚ) : Analysis :=
  { adjusted_score := embedding_score
    can_help := decide ((2 : ℚ) / 5 < embedding_score)
    confidence := 1 / 2
    reasoning := "LLM analysis failed, using embedding score only"
    explanation := "This match is based on semantic similarity. The helper's skills appear relevant to your need."
    prerequisites_met := true
    skill_level_match := true
    llm_model := "fallback" }

/-- `LLMService.analyze_match`: the provider round trip is modelled by
`call` (its error case covers network failure, a non-2xx status, and a
malformed envelope) and response parsing by `parseResp` (the error case of
`_parse_llm_response`: JSON decode failure or a missing mandatory field).
Both failures are caught by the surrounding `try`/`except` and produce the
fallback verdict; a successful parse is returned with the model name
attached. -/
def analyze_match (call : Except String String)
    (parseResp : String → Except String Analysis) (model : String)
    (embedding_score : ℚ) : Analysis :=
  match call with
  | Except.error _ => fallback_analysis embedding_score
  | Except.ok content =>
    match parseResp content with
    | Except.error _ => fallback_analysis embedding_score
    | Except.ok r => { r with llm_model := model }

/-! ## Lexical skill compatibility
(`MatchingService._skills_are_similar` / `_check_reciprocity` and
`BarterService._can_help` / `_keywords_match`) -/

/-- Python `str.lower()` on the characters of a string. -/
def lowerList (s : String) : List Char :=
  s.toList.map Char.toLower

/-- Whether `needle` is a leading segment of `hay`. -/
def startsList : List Char → List Char → Bool
  | [], _ => true
  | _ :: _, [] => false
  | c :: cs, d :: ds => c = d && startsList cs ds

/-- Python's substring test `needle in hay` (contiguous occurrence). -/
def containsList (needle : List Char) : List Char → Bool
  | [] => startsList needle []
  | d :: ds => startsList needle (d :: ds) || containsList needle ds

/-- Python `str.strip()`: drop whitespace from both ends. -/
def trimList (l : List Char) : List Char :=
  (((l.dropWhile Char.isWhitespace).reverse.dropWhile Char.isWhitespace)).reverse

/-- A keyword has non-whitespace boundary characters: the condition under
which an occurrence of the keyword survives stripping the surrounding
string. -/
def boundaryOk (v : List Char) : Bool :=
  !v.isEmpty && !(v.headD ' ').isWhitespace && !(v.reverse.headD ' ').isWhitespace

/-- The `skill_groups` table of `BarterService._keywords_match`. -/
def barter_skill_groups : List (String × List String) :=
  [("python", ["python", "django", "flask", "fastapi"]),
   ("react", ["react", "reactjs", "next.js", "nextjs"]),
   ("javascript", ["javascript", "js", "typescript", "ts"]),
   ("ml", ["ml", "machine learning", "deep learning", "ai"])]

/-- The `skill_keywords` table of `MatchingService._skills_are_similar`.
It contains the four barter groups (under slightly different keys) plus an
extra "data" group. -/
def matching_skill_keywords : List (String × List String) :=
  [("python", ["python", "django", "flask", "fastapi"]),
   ("react", ["react", "reactjs", "next.js", "nextjs"]),
   ("javascript", ["javascript", "js", "typescript", "ts"]),
   ("machine learning", ["ml", "machine learning", "deep learning", "ai"]),
   ("data", ["data", "analytics", "analysis", "visualization"])]

/-- `BarterService._keywords_match`: both lowercased names contain some
keyword of a common group. -/
def keywords_match (need skill : String) : Bool :=
  let need_lower := lowerList need
  let skill_lower := lowerList skill
  barter_skill_groups.any (fun g =>
    g.2.any (fun k => containsList k.toList need_lower)
      && g.2.any (fun k => containsList k.toList skill_lower))

/-- `MatchingService._skills_are_similar`: lowercase and strip both names;
accept on exact equality or when both contain a variation of a common
keyword group. -/
def skills_are_similar (skill1 skill2 : String) : Bool :=
  let s1 := trimList (lowerList skill1)
  let s2 := trimList (lowerList skill2)
  if s1 = s2 then true
  else
    matching_skill_keywords.any (fun g =>
      g.2.any (fun v => containsList v.toList s1)
        && g.2.any (fun v => containsList v.toList s2))

/-- The per-(need, skill) compatibility test applied inside the loop of
`BarterService._can_help`: case-insensitive substring containment in
either direction, or `_keywords_match`. -/
def barter_pair_test (need skill : String) : Bool :=
  let need_lower := lowerList need
  let skill_lower := lowerList skill
  containsList need_lower skill_lower || containsList skill_lower need_lower
    || keywords_match need skill

/-- The per-(helper need, user skill) test applied inside the loops of
`MatchingService._check_reciprocity`: case-insensitive substring
containment in either direction, or `_skills_are_similar`. -/
def recip_pair_test (helper_need user_skill : String) : Bool :=
  let helper_need_lower := lowerList helper_need
  let user_skill_lower := lowerList user_skill
  containsList helper_need_lower user_skill_lower
    || containsList user_skill_lower helper_need_lower
    || skills_are_similar helper_need user_skill

/-! ## User model and matching service (`backend/services/matching_service.py`) -/

/-- `SkillItem` of `models/user.py`, restricted to the fields the matching
core reads. -/
structure Skill where
  name : String
  description : Option String
  proficiency_level : Option String
deriving Repr, DecidableEq

/-- A user, restricted to the fields the matching core reads. -/
structure User where
  id : String
  username : String
  skills_offered : List Skill
  skills_needed : List Skill
deriving Repr, DecidableEq

/-- `BarterService._can_help`: a helper with no offered skills cannot
help; otherwise some offered skill must pass the lexical pair test against
the need name. -/
def barter_can_help (helper : User) (need : Skill) : Bool :=
  if helper.skills_offered = [] then false
  else helper.skills_offered.any (fun skill => barter_pair_test need.name skill.name)

/-- One entry of the candidate list built by
`MatchingService._retrieve_candidates` (the `metadata` dict is flattened
into the two proficiency fields; the embedded helper object is represented
by its id, which is all the downstream phases read from it in this model). -/
structure Candidate where
  user_id : String
  matched_user_id : String
  skill_offered : String
  skill_offered_description : Option String
  skill_needed : String
  skill_needed_description : Option String
  embedding_score : ℚ
  helper_proficiency : Option String
  seeker_level : Option String
deriving Repr, DecidableEq

/-- `MIN_EMBEDDING_SIMILARITY` of `core/types.py` (0.4). -/
def MIN_EMBEDDING_SIMILARITY : ℚ := 2 / 5

/-- The candidate dict appended by `_retrieve_candidates` for one
(need, helper, skill) triple. -/
def mk_candidate (user helper : User) (need skill : Skill) (sim : ℚ) : Candidate :=
  { user_id := user.id
    matched_user_id := helper.id
    skill_offered := skill.name
    skill_offered_description := skill.description
    skill_needed := need.name
    skill_needed_description := need.description
    embedding_score := sim
    helper_proficiency := skill.proficiency_level
    seeker_level := need.proficiency_level }

/-- `MatchingService._retrieve_candidates`.  The embedding service is
abstracted by `needVec`/`skillVec` (vector of the need/skill text under
its owner, as produced by `get_or_create`); the caching behaviour itself
is verified separately on `get_or_create`.  Returns the candidate list
and the number of `get_or_create` invocations made (one per need plus one
per (need, helper, offered skill) triple; zero when there are no
potential helpers, because of the early return). -/
def retrieve_candidates (user : User) (helpers : List User)
    (needVec skillVec : String → Skill → List ℚ) (top_k : Nat) :
    List Candidate × Nat :=
  if helpers = [] then ([], 0)
  else
    let candidates := user.skills_needed.flatMap (fun need =>
      helpers.flatMap (fun helper =>
        helper.skills_offered.flatMap (fun skill =>
          let similarity := embedding_cosine_similarity (needVec user.id need)
            (skillVec helper.id skill)
          if MIN_EMBEDDING_SIMILARITY ≤ similarity then
            [mk_candidate user helper need skill similarity]
          else [])))
    ((sortDescBy (fun c => c.embedding_score) candidates).take top_k,
     user.skills_needed.length * (1 + (helpers.map (fun h => h.skills_offered.length)).sum))

/-- All (need, helper, offered skill) candidate records before threshold
filtering, written after the words of the spec (§4.4): used only to state
the retrieval claim. -/
def candidate_pairs (user : User) (helpers : List User)
    (needVec skillVec : String → Skill → List ℚ) : List Candidate :=
  user.skills_needed.flatMap (fun need =>
    helpers.flatMap (fun helper =>
      helper.skills_offered.map (fun skill =>
        mk_candidate user helper need skill
          (embedding_cosine_similarity (needVec user.id need) (skillVec helper.id skill)))))

/-- `MatchResult` of `core/types.py`, minus the free-form `metadata` dict. -/
structure MatchResult where
  user_id : String
  matched_user_id : String
  skill_offered : String
  skill_needed : String
  match_score : ℚ
  confidence : ℚ
  explanation : String
  is_reciprocal : Bool
deriving Repr, DecidableEq

/-- The match built by `_rerank_with_llm` from a verdict the judgment
adapter accepted. -/
def mk_llm_match (user : User) (c : Candidate) (a : Analysis) : MatchResult :=
  { user_id := user.id
    matched_user_id := c.matched_user_id
    skill_offered := c.skill_offered
    skill_needed := c.skill_needed
    match_score := a.adjusted_score
    confidence := a.confidence
    explanation := a.explanation
    is_reciprocal := false }

/-- The inline per-candidate fallback match of `_rerank_with_llm`, used
when the adapter call raises. -/
def mk_fallback_match (user : User) (c : Candidate) : MatchResult :=
  { user_id := user.id
    matched_user_id := c.matched_user_id
    skill_offered := c.skill_offered
    skill_needed := c.skill_needed
    match_score := c.embedding_score
    confidence := 1 / 2
    explanation := "This helper has skills in " ++ c.skill_offered ++ " which may help with your need."
    is_reciprocal := false }

/-- `MatchingService._rerank_with_llm`: one judgment call per candidate
(`llmAnalyze`, whose error case models an unexpected throw); candidates
whose verdict has `can_help = false` are dropped, throws fall back to an
embedding-only match, the rest keep the adjusted score; results are stably
sorted descending by score and truncated.  Returns the matches and the
number of judgment calls. -/
def rerank_with_llm (user : User) (candidates : List Candidate)
    (llmAnalyze : Candidate → Except String Analysis) (top_k : Nat) :
    List MatchResult × Nat :=
  let ms := candidates.flatMap (fun c =>
    match llmAnalyze c with
    | Except.ok a => if a.can_help then [mk_llm_match user c a] else []
    | Except.error _ => [mk_fallback_match user c])
  ((sortDescBy (fun m => m.match_score) ms).take top_k, candidates.length)

/-- `MatchingService._convert_candidates_to_matches`: the no-LLM path.
Each of the first `top_k` candidates maps to a match carrying its
embedding score and the fixed confidence 0.7. -/
def convert_candidates_to_matches (candidates : List Candidate) (top_k : Nat) :
    List MatchResult :=
  (candidates.take top_k).map (fun c =>
    { user_id := c.user_id
      matched_user_id := c.matched_user_id
      skill_offered := c.skill_offered
      skill_needed := c.skill_needed
      match_score := c.embedding_score
      confidence := 7 / 10
      explanation := "Based on semantic similarity, this helper's skills in " ++ c.skill_offered ++ " align with your need for " ++ c.skill_needed ++ "."
      is_reciprocal := false })

/-- The reverse-direction scan of `_check_reciprocity`: some need of the
helper and some offered skill of the user pass the lexical pair test. -/
def can_help_back (user helper : User) : Bool :=
  helper.skills_needed.any (fun hn =>
    user.skills_offered.any (fun us => recip_pair_test hn.name us.name))

/-- `MatchingService._check_reciprocity`: for each match, fetch the helper
profile; skip when missing, when the helper declares no needs, or when the
user offers nothing; otherwise flag the match reciprocal iff the reverse
scan succeeds.  Scores and confidences are never modified. -/
def check_reciprocity (storage : String → Option User) (user : User)
    (ms : List MatchResult) : List MatchResult :=
  ms.map (fun m =>
    match storage m.matched_user_id with
    | none => m
    | some helper =>
      if helper.skills_needed = [] ∨ user.skills_offered = [] then m
      else if can_help_back user helper then { m with is_reciprocal := true }
      else m)

/-- Execution trace of `find_matches_for_user`: the returned matches, the
phase-1 candidate list, and how often the embedding service and the
judgment adapter were invoked. -/
structure FindTrace where
  results : List MatchResult
  candidates : List Candidate
  embedServiceCalls : Nat
  llmCalls : Nat
deriving Repr, DecidableEq

/-- `MatchingService.find_matches_for_user`: unknown user or a user
without declared needs yields the empty result before any phase runs; an
empty candidate pool also returns early; otherwise phase 2 is either the
LLM re-rank or the direct conversion, followed by the reciprocity scan.
The candidate pool size passed to phase 1 is `top_k * 2`. -/
def find_matches_for_user (storage : String → Option User) (helpers : List User)
    (needVec skillVec : String → Skill → List ℚ)
    (llmAnalyze : Candidate → Except String Analysis)
    (user_id : String) (top_k : Nat) (use_llm : Bool) : FindTrace :=
  match storage user_id with
  | none => ⟨[], [], 0, 0⟩
  | some user =>
    if user.skills_needed = [] then ⟨[], [], 0, 0⟩
    else
      let rc := retrieve_candidates user helpers needVec skillVec (top_k * 2)
      if rc.1 = [] then ⟨[], rc.1, rc.2, 0⟩
      else if use_llm then
        let rr := rerank_with_llm user rc.1 llmAnalyze top_k
        ⟨check_reciprocity storage user rr.1, rc.1, rc.2, rr.2⟩
      else
        ⟨check_reciprocity storage user (convert_candidates_to_matches rc.1 top_k),
         rc.1, rc.2, 0⟩

/-! ## Basic facts about the arithmetic models -/

theorem sqrtQ_zero : sqrtQ 0 = 0 := by
  simp [sqrtQ]

theorem normQ_nil : normQ [] = 0 := by
  simp [normQ, sumSq, dotQ, sqrtQ_zero]

theorem clampQ_mem (x : ℚ) : -1 ≤ clampQ x ∧ clampQ x ≤ 1 := by
  constructor
  · exact le_max_left _ _
  · simp only [clampQ, max_le_iff]
    exact ⟨by norm_num, min_le_left _ _⟩

/-! ## Sorting lemmas: `sortDescBy` is a stable descending sort -/

theorem pairwise_orderedInsertDesc {α : Type} (score : α → ℚ) (a : α) (l : List α)
    (hl : l.Pairwise (fun x y => score y ≤ score x)) :
    (List.orderedInsert (fun x y => score y ≤ score x) a l).Pairwise
      (fun x y => score y ≤ score x) := by
  induction l with
  | nil => simp [List.orderedInsert]
  | cons b t ih =>
    rw [List.pairwise_cons] at hl
    rw [List.orderedInsert]
    by_cases h : score b ≤ score a
    · rw [if_pos h]
      refine List.pairwise_cons.2 ⟨?_, List.pairwise_cons.2 hl⟩
      intro y hy
      rcases List.mem_cons.1 hy with rfl | hy
      · exact h
      · exact le_trans (hl.1 y hy) h
    · rw [if_neg h]
      refine List.pairwise_cons.2 ⟨?_, ih hl.2⟩
      intro y hy
      rcases (List.mem_orderedInsert _).1 hy with rfl | hy
      · exact le_of_lt (lt_of_not_le h)
      · exact hl.1 y hy

theorem pairwise_sortDescBy {α : Type} (score : α → ℚ) (l : List α) :
    (sortDescBy score l).Pairwise (fun x y => score y ≤ score x) := by
  induction l with
  | nil => simp [sortDescBy, List.insertionSort]
  | cons a t ih =>
    exact pairwise_orderedInsertDesc score a (sortDescBy score t) ih

theorem pairwise_orderedInsert_stable {α : Type} (score : α → ℚ) (idx : α → Nat)
    (a : α) (l : List α)
    (hl : l.Pairwise (fun x y => score y ≤ score x ∧ (score x = score y → idx x < idx y)))
    (ha : ∀ x ∈ l, idx a < idx x) :
    (List.orderedInsert (fun x y => score y ≤ score x) a l).Pairwise
      (fun x y => score y ≤ score x ∧ (score x = score y → idx x < idx y)) := by
  induction l with
  | nil => simp [List.orderedInsert]
  | cons b t ih =>
    rw [List.pairwise_cons] at hl
    rw [List.orderedInsert]
    by_cases h : score b ≤ score a
    · rw [if_pos h]
      refine List.pairwise_cons.2 ⟨?_, List.pairwise_cons.2 hl⟩
      intro y hy
      rcases List.mem_cons.1 hy with rfl | hy
      · exact ⟨h, fun _ => ha y (List.mem_cons_self _ _)⟩
      · exact ⟨le_trans (hl.1 y hy).1 h, fun _ => ha y (List.mem_cons_of_mem _ hy)⟩
    · rw [if_neg h]
      refine List.pairwise_cons.2
        ⟨?_, ih hl.2 (fun x hx => ha x (List.mem_cons_of_mem _ hx))⟩
      intro y hy
      rcases (List.mem_orderedInsert _).1 hy with rfl | hy
      · exact ⟨le_of_lt (lt_of_not_le h), fun he => absurd (le_of_eq he) h⟩
      · exact hl.1 y hy

theorem pairwise_sortDescBy_stable {α : Type} (score : α → ℚ) (idx : α → Nat)
    (l : List α) (h : l.Pairwise (fun x y => idx x < idx y)) :
    (sortDescBy score l).Pairwise
      (fun x y => score y ≤ score x ∧ (score x = score y → idx x < idx y)) := by
  induction l with
  | nil => simp [sortDescBy, List.insertionSort]
  | cons a t ih =>
    rw [List.pairwise_cons] at h
    refine pairwise_orderedInsert_stable score idx a (sortDescBy score t) (ih h.2) ?_
    intro x hx
    exact h.1 x ((List.perm_insertionSort _ t).mem_iff.1 hx)

/-! ## Claim theorems: similarity kernel -/

/-- C4: `batch_cosine_similarity` returns (index, score) pairs sorted
descending by score, and two entries with equal scores appear in order of
ascending original index (Python's `list.sort` is stable and the
pre-sort list is built in index order). -/
theorem batch_cosine_similarity_sorted (query_vec : List ℚ)
    (corpus_vecs : List (List ℚ)) (top_k : Nat) :
    (batch_cosine_similarity query_vec corpus_vecs top_k).Pairwise
      (fun x y => y.2 ≤ x.2 ∧ (x.2 = y.2 → x.1 < y.1)) := by
  have henum : (corpus_vecs.enum).Pairwise (fun p q => p.1 < q.1) := by
    have h1 : (corpus_vecs.enum.map Prod.fst).Pairwise (fun i j => i < j) := by
      rw [List.enum_map_fst]
      exact List.pairwise_lt_range _
    exact List.pairwise_map.1 h1
  unfold batch_cosine_similarity
  by_cases hc : corpus_vecs = []
  · simp [hc]
  · rw [if_neg hc]
    by_cases hq : normQ query_vec = 0
    · rw [if_pos hq]
      refine List.pairwise_map.2 ?_
      exact (List.pairwise_lt_range _).imp (fun h => ⟨le_refl 0, fun _ => h⟩)
    · rw [if_neg hq]
      refine List.Pairwise.sublist (List.take_sublist _ _) ?_
      refine pairwise_sortDescBy_stable (fun x : Nat × ℚ => x.2) (fun x : Nat × ℚ => x.1) _ ?_
      refine List.pairwise_map.2 ?_
      refine henum.imp ?_
      intro p q h
      by_cases hp : normQ p.2 = 0 <;> by_cases hq2 : normQ q.2 = 0 <;>
        simp [hp, hq2, h]

/-- C5: the kernel's `cosine_similarity` errors when an input is empty;
for non-empty inputs of different lengths it errors with the
dimension-mismatch message (the emptiness check runs first in the source,
so the non-emptiness hypotheses delimit that precedence); for equal-length
non-empty inputs it succeeds with a value in `[-1, 1]`, and that value is
exactly `0` when either input has zero norm (sum of squares zero). -/
theorem cosine_similarity_spec (vec_a vec_b : List ℚ) :
    ((vec_a = [] ∨ vec_b = []) →
      cosine_similarity vec_a vec_b = Except.error "Vectors cannot be empty")
    ∧ (vec_a ≠ [] → vec_b ≠ [] → vec_a.length ≠ vec_b.length →
      cosine_similarity vec_a vec_b = Except.error "Vector dimension mismatch")
    ∧ (vec_a ≠ [] → vec_b ≠ [] → vec_a.length = vec_b.length →
      ∃ v, cosine_similarity vec_a vec_b = Except.ok v ∧ -1 ≤ v ∧ v ≤ 1 ∧
        ((sumSq vec_a = 0 ∨ sumSq vec_b = 0) → v = 0)) := by
  refine ⟨?_, ?_, ?_⟩
  · intro h
    have hlen : vec_a.length = 0 ∨ vec_b.length = 0 := by
      rcases h with h | h <;> simp [h]
    simp only [cosine_similarity]
    rw [if_pos hlen]
  · intro ha hb hne
    have hlen : ¬(vec_a.length = 0 ∨ vec_b.length = 0) := by
      push_neg
      constructor <;> simpa [List.length_eq_zero]
    simp only [cosine_similarity]
    rw [if_neg hlen, if_pos hne]
  · intro ha hb heq
    have hlen : ¬(vec_a.length = 0 ∨ vec_b.length = 0) := by
      push_neg
      constructor <;> simpa [List.length_eq_zero]
    simp only [cosine_similarity]
    rw [if_neg hlen, if_neg (by simpa using heq)]
    by_cases hz : normQ vec_a = 0 ∨ normQ vec_b = 0
    · rw [if_pos hz]
      exact ⟨0, rfl, by norm_num, by norm_num, fun _ => rfl⟩
    · rw [if_neg hz]
      refine ⟨_, rfl, (clampQ_mem _).1, (clampQ_mem _).2, ?_⟩
      intro hss
      exfalso
      apply hz
      rcases hss with h | h
      · exact Or.inl (by simp [normQ, h, sqrtQ_zero])
      · exact Or.inr (by simp [normQ, h, sqrtQ_zero])

/-- C10: the embedding service's own `cosine_similarity` (the one used on
the retrieval path) performs no emptiness or dimension validation — it is a
total function with no error branch — and returns `0` for every pair in
which either vector is empty or has zero norm. -/
theorem embedding_cosine_similarity_degenerate (a b : List ℚ)
    (h : a = [] ∨ b = [] ∨ sumSq a = 0 ∨ sumSq b = 0) :
    embedding_cosine_similarity a b = 0 := by
  have hz : normQ a = 0 ∨ normQ b = 0 := by
    rcases h with h | h | h | h
    · exact Or.inl (by simp [h, normQ_nil])
    · exact Or.inr (by simp [h, normQ_nil])
    · exact Or.inl (by simp [normQ, h, sqrtQ_zero])
    · exact Or.inr (by simp [normQ, h, sqrtQ_zero])
  simp only [embedding_cosine_similarity]
  rw [if_pos hz]

/-- Witness for C5 at concrete inputs: both hypothesis sets are
dischargeable and the theorem applies. -/
theorem cosine_similarity_spec_witness :
    (([] : List ℚ) = [] ∨ ([4] : List ℚ) = []) ∧
    cosine_similarity ([] : List ℚ) [4] = Except.error "Vectors cannot be empty" ∧
    (∃ v, cosine_similarity ([3, 4] : List ℚ) [1, 2] = Except.ok v ∧
      -1 ≤ v ∧ v ≤ 1 ∧ ((sumSq [(3 : ℚ), 4] = 0 ∨ sumSq [(1 : ℚ), 2] = 0) → v = 0)) :=
  ⟨Or.inl rfl,
   (cosine_similarity_spec [] [4]).1 (Or.inl rfl),
   (cosine_similarity_spec [3, 4] [1, 2]).2.2 (by decide) (by decide) (by decide)⟩

/-- Witness for C10 at a concrete degenerate input. -/
theorem embedding_cosine_similarity_degenerate_witness :
    (([] : List ℚ) = [] ∨ ([7] : List ℚ) = [] ∨ sumSq ([] : List ℚ) = 0 ∨ sumSq [(7 : ℚ)] = 0) ∧
    embedding_cosine_similarity ([] : List ℚ) [7] = 0 :=
  ⟨Or.inl rfl, embedding_cosine_similarity_degenerate [] [7] (Or.inl rfl)⟩

/-! ## Claim theorems: embedding cache -/

/-- C1: `get_or_create` returns the stored vector verbatim without calling
the provider when the entry under the key has the current model, the hash
of the whitespace-normalized text, and a non-empty vector; otherwise it
calls the provider on the single text, upserts an entry carrying the new
vector, hash, model and `updatedAt = now` while preserving an old entry's
`createdAt`, and returns the new vector.  (The miss conjunct assumes the
store write succeeds; a failing write propagates, see
`get_or_create_upsert_failure`.) -/
theorem get_or_create_spec (modelName : String) (hash : String → String)
    (embed : String → List ℚ) (upsertOk : Bool) (now : Nat)
    (cached : Option CacheEntry) (text : String) :
    (∀ e, cached = some e →
      e.model = modelName → e.textHash = sha256_text hash text → e.vector ≠ [] →
      get_or_create modelName hash embed upsertOk now cached text
        = Except.ok ⟨e.vector, some e, false⟩)
    ∧ (upsertOk = true →
      (∀ e, cached = some e →
        ¬(e.model = modelName ∧ e.textHash = sha256_text hash text ∧ e.vector ≠ [])) →
      get_or_create modelName hash embed upsertOk now cached text
        = Except.ok ⟨embed text, some
            { model := modelName
              textHash := sha256_text hash text
              dim := (embed text).length
              vector := embed text
              updatedAt := now
              createdAt := (cached.map CacheEntry.createdAt).getD now }, true⟩) := by
  constructor
  · intro e he hm hh hv
    subst he
    simp only [get_or_create]
    rw [if_pos ⟨hm, hh, hv⟩]
  · intro hup hmiss
    subst hup
    cases cached with
    | none => simp [get_or_create, goc_miss]
    | some e =>
      have hne := hmiss e rfl
      simp only [get_or_create]
      rw [if_neg hne]
      simp [goc_miss]

/-- Witness for C1: a concrete cache hit and a concrete miss. -/
theorem get_or_create_spec_witness :
    get_or_create "m" (fun s => s) (fun _ => [5]) true 7
        (some ⟨"m", "sha256:a b", 1, [9], 1, 2⟩) "a  b"
      = Except.ok ⟨[9], some ⟨"m", "sha256:a b", 1, [9], 1, 2⟩, false⟩
    ∧ get_or_create "m" (fun s => s) (fun _ => [5]) true 7 none "a  b"
      = Except.ok ⟨[5], some
          { model := "m"
            textHash := sha256_text (fun s => s) "a  b"
            dim := ([5] : List ℚ).length
            vector := [5]
            updatedAt := 7
            createdAt := ((none : Option CacheEntry).map CacheEntry.createdAt).getD 7 }, true⟩ :=
  ⟨(get_or_create_spec "m" (fun s => s) (fun _ => [5]) true 7
      (some ⟨"m", "sha256:a b", 1, [9], 1, 2⟩) "a  b").1
      ⟨"m", "sha256:a b", 1, [9], 1, 2⟩ rfl rfl rfl (by decide),
   (get_or_create_spec "m" (fun s => s) (fun _ => [5]) true 7 none "a  b").2
      rfl (fun _ h => Option.noConfusion h)⟩

/-- C6 counterexample: the claim says a cache-store write failure inside
`get_or_create` is swallowed and the computed vector still returned; at
this concrete input the vector `[5]` is computed, the write fails, and
`get_or_create` raises instead of returning the vector. -/
theorem upsert_failure_not_swallowed_cex :
    get_or_create "m" (fun s => s) (fun _ => [5]) false 0 none "t"
      = Except.error "Error upserting embedding" := rfl

/-- C6 (amended): `MongoEmbeddingCacheRepo.upsert` logs a write failure
and re-raises it, and `get_or_create` does not catch it: on any cache miss
with a failing store write, the error propagates to the caller and the
computed vector is not returned. -/
theorem get_or_create_upsert_failure (modelName : String) (hash : String → String)
    (embed : String → List ℚ) (now : Nat) (cached : Option CacheEntry) (text : String)
    (hmiss : ∀ e, cached = some e →
      ¬(e.model = modelName ∧ e.textHash = sha256_text hash text ∧ e.vector ≠ [])) :
    get_or_create modelName hash embed false now cached text
      = Except.error "Error upserting embedding" := by
  cases cached with
  | none => rfl
  | some e =>
    have hne := hmiss e rfl
    simp only [get_or_create]
    rw [if_neg hne]
    simp [goc_miss]

/-- Witness for the amended C6 at a concrete miss with a failing write. -/
theorem get_or_create_upsert_failure_witness :
    get_or_create "m" (fun s => s) (fun _ => [5]) false 0 none "t"
      = Except.error "Error upserting embedding" :=
  get_or_create_upsert_failure "m" (fun s => s) (fun _ => [5]) 0 none "t"
    (fun _ h => Option.noConfusion h)

/-! ## Claim theorems: judgment adapter -/

/-- C2: when the provider call fails, or the call succeeds but the
response fails to parse, `analyze_match` returns the deterministic
fallback verdict: adjusted score equal to the embedding score, capability
iff the embedding score exceeds 0.4, confidence 0.5.  `analyze_match` and
`fallback_analysis` are total Lean functions, so this path cannot raise. -/
theorem analyze_match_fallback (call : Except String String)
    (parseResp : String → Except String Analysis) (model : String)
    (embedding_score : ℚ)
    (h : match call with
      | Except.error _ => True
      | Except.ok content => ∃ msg, parseResp content = Except.error msg) :
    analyze_match call parseResp model embedding_score
      = fallback_analysis embedding_score
    ∧ (analyze_match call parseResp model embedding_score).adjusted_score
      = embedding_score
    ∧ (analyze_match call parseResp model embedding_score).can_help
      = decide ((2 : ℚ) / 5 < embedding_score)
    ∧ (analyze_match call parseResp model embedding_score).confidence = 1 / 2 := by
  have heq : analyze_match call parseResp model embedding_score
      = fallback_analysis embedding_score := by
    cases call with
    | error _ => exact rfl
    | ok content =>
      obtain ⟨msg, hmsg⟩ := h
      simp [analyze_match, hmsg]
  exact ⟨heq, by rw [heq]; rfl, by rw [heq]; rfl, by rw [heq]; rfl⟩

/-- Witness for C2: a failed provider call and a failed parse, both at a
concrete embedding score. -/
theorem analyze_match_fallback_witness :
    analyze_match (Except.error "boom") (fun _ => Except.error "bad") "m" (1 / 2)
      = fallback_analysis (1 / 2)
    ∧ analyze_match (Except.ok "not json") (fun _ => Except.error "bad") "m" (3 / 4)
      = fallback_analysis (3 / 4) :=
  ⟨(analyze_match_fallback (Except.error "boom") (fun _ => Except.error "bad")
      "m" (1 / 2) trivial).1,
   (analyze_match_fallback (Except.ok "not json") (fun _ => Except.error "bad")
      "m" (3 / 4) ⟨"bad", rfl⟩).1⟩

/-! ## Claim theorems: candidate retrieval and the matching pipeline -/

theorem flatMap_ite_singleton {α β : Type} (l : List α) (f : α → β)
    (p : β → Prop) [DecidablePred p] :
    (l.flatMap (fun x => if p (f x) then [f x] else []))
      = (l.map f).filter (fun b => decide (p b)) := by
  induction l with
  | nil => rfl
  | cons a t ih =>
    simp only [List.flatMap_cons, List.map_cons, List.filter_cons]
    by_cases h : p (f a) <;> simp [h, ih]

theorem filter_flatMap {α β : Type} (l : List α) (g : α → List β) (p : β → Bool) :
    (l.flatMap g).filter p = l.flatMap (fun x => (g x).filter p) := by
  induction l with
  | nil => rfl
  | cons a t ih => simp [List.flatMap_cons, List.filter_append, ih]

theorem flatMap_fun_nil {α β : Type} (l : List α) :
    (l.flatMap (fun _ => ([] : List β))) = [] := by
  induction l with
  | nil => rfl
  | cons a t ih => simp [List.flatMap_cons, ih]

/-- The unsorted candidate list built by the nested loops of
`_retrieve_candidates` is the threshold filter of all candidate pairs. -/
theorem retrieve_loop_eq_filter (user : User) (helpers : List User)
    (needVec skillVec : String → Skill → List ℚ) :
    (user.skills_needed.flatMap (fun need =>
      helpers.flatMap (fun helper =>
        helper.skills_offered.flatMap (fun skill =>
          let similarity := embedding_cosine_similarity (needVec user.id need)
            (skillVec helper.id skill)
          if MIN_EMBEDDING_SIMILARITY ≤ similarity then
            [mk_candidate user helper need skill similarity]
          else []))))
      = (candidate_pairs user helpers needVec skillVec).filter
          (fun c => decide (MIN_EMBEDDING_SIMILARITY ≤ c.embedding_score)) := by
  simp only [candidate_pairs, filter_flatMap]
  refine congrArg (List.flatMap user.skills_needed) (funext fun need => ?_)
  refine congrArg (List.flatMap helpers) (funext fun helper => ?_)
  exact flatMap_ite_singleton helper.skills_offered
    (fun skill => mk_candidate user helper need skill
      (embedding_cosine_similarity (needVec user.id need) (skillVec helper.id skill)))
    (fun c => MIN_EMBEDDING_SIMILARITY ≤ c.embedding_score)

/-- C3: phase-1 retrieval returns exactly the candidate pairs passing the
0.4 similarity threshold (a pair is kept iff its score is at least
`MIN_EMBEDDING_SIMILARITY`), stably sorted descending by embedding score
and truncated to the pool size; the output is sorted descending; and
`find_matches_for_user` invokes retrieval with pool size `top_k * 2`. -/
theorem retrieve_candidates_spec (user : User) (helpers : List User)
    (needVec skillVec : String → Skill → List ℚ)
    (storage : String → Option User)
    (llmAnalyze : Candidate → Except String Analysis)
    (user_id : String) (top_k : Nat) (use_llm : Bool)
    (hu : storage user_id = some user) (hn : user.skills_needed ≠ []) :
    (retrieve_candidates user helpers needVec skillVec (top_k * 2)).1
      = (sortDescBy (fun c => c.embedding_score)
          ((candidate_pairs user helpers needVec skillVec).filter
            (fun c => decide (MIN_EMBEDDING_SIMILARITY ≤ c.embedding_score)))).take
          (top_k * 2)
    ∧ ((retrieve_candidates user helpers needVec skillVec (top_k * 2)).1).Pairwise
        (fun x y => y.embedding_score ≤ x.embedding_score)
    ∧ (find_matches_for_user storage helpers needVec skillVec llmAnalyze
        user_id top_k use_llm).candidates
      = (retrieve_candidates user helpers needVec skillVec (top_k * 2)).1 := by
  refine ⟨?_, ?_, ?_⟩
  · by_cases hh : helpers = []
    · simp [retrieve_candidates, hh, candidate_pairs, flatMap_fun_nil, sortDescBy,
        List.insertionSort]
    · simp only [retrieve_candidates]
      rw [if_neg hh, ← retrieve_loop_eq_filter]
  · by_cases hh : helpers = []
    · simp [retrieve_candidates, hh]
    · simp only [retrieve_candidates]
      rw [if_neg hh]
      exact List.Pairwise.sublist (List.take_sublist _ _)
        (pairwise_sortDescBy (fun c : Candidate => c.embedding_score) _)
  · by_cases h1 : (retrieve_candidates user helpers needVec skillVec (top_k * 2)).1 = [] <;>
      by_cases h2 : use_llm <;>
      simp [find_matches_for_user, hu, hn, h1, h2]

/-- Witness for C3 at a concrete user, helper list and embedding map. -/
theorem retrieve_candidates_spec_witness :
    ((fun u => if u = "u1" then some (⟨"u1", "u1", [], [⟨"python", none, none⟩]⟩ : User) else none) "u1"
      = some (⟨"u1", "u1", [], [⟨"python", none, none⟩]⟩ : User))
    ∧ (⟨"u1", "u1", [], [⟨"python", none, none⟩]⟩ : User).skills_needed ≠ []
    ∧ (retrieve_candidates ⟨"u1", "u1", [], [⟨"python", none, none⟩]⟩ [] (fun _ _ => []) (fun _ _ => []) (3 * 2)).1
      = (sortDescBy (fun c => c.embedding_score)
          ((candidate_pairs ⟨"u1", "u1", [], [⟨"python", none, none⟩]⟩ [] (fun _ _ => []) (fun _ _ => [])).filter
            (fun c => decide (MIN_EMBEDDING_SIMILARITY ≤ c.embedding_score)))).take (3 * 2) :=
  ⟨by decide, by decide,
   (retrieve_candidates_spec ⟨"u1", "u1", [], [⟨"python", none, none⟩]⟩ []
      (fun _ _ => []) (fun _ _ => [])
      (fun u => if u = "u1" then some ⟨"u1", "u1", [], [⟨"python", none, none⟩]⟩ else none)
      (fun _ => Except.error "") "u1" 3 false (by decide) (by decide)).1⟩

/-- C8: `find_matches_for_user` returns a valid empty result — not an
error — when the user is unknown or declares no needs, and in both cases
no embedding-service call and no judgment call is made (the trace records
zero calls of each). -/
theorem find_matches_empty_cases (storage : String → Option User)
    (helpers : List User) (needVec skillVec : String → Skill → List ℚ)
    (llmAnalyze : Candidate → Except String Analysis)
    (user_id : String) (top_k : Nat) (use_llm : Bool) :
    (storage user_id = none →
      find_matches_for_user storage helpers needVec skillVec llmAnalyze
        user_id top_k use_llm = ⟨[], [], 0, 0⟩)
    ∧ (∀ user, storage user_id = some user → user.skills_needed = [] →
      find_matches_for_user storage helpers needVec skillVec llmAnalyze
        user_id top_k use_llm = ⟨[], [], 0, 0⟩) := by
  constructor
  · intro h
    simp [find_matches_for_user, h]
  · intro user hu hne
    simp [find_matches_for_user, hu, hne]

/-- Witness for C8: an unknown user and a user without needs. -/
theorem find_matches_empty_cases_witness :
    find_matches_for_user (fun _ => none) [] (fun _ _ => []) (fun _ _ => [])
      (fun _ => Except.error "") "ghost" 5 true = ⟨[], [], 0, 0⟩
    ∧ find_matches_for_user (fun _ => some ⟨"u2", "u2", [⟨"react", none, none⟩], []⟩)
      [] (fun _ _ => []) (fun _ _ => [])
      (fun _ => Except.error "") "u2" 5 true = ⟨[], [], 0, 0⟩ :=
  ⟨(find_matches_empty_cases (fun _ => none) [] (fun _ _ => []) (fun _ _ => [])
      (fun _ => Except.error "") "ghost" 5 true).1 rfl,
   (find_matches_empty_cases (fun _ => some ⟨"u2", "u2", [⟨"react", none, none⟩], []⟩)
      [] (fun _ _ => []) (fun _ _ => [])
      (fun _ => Except.error "") "u2" 5 true).2
      ⟨"u2", "u2", [⟨"react", none, none⟩], []⟩ rfl rfl⟩

/-- The reciprocity scan only flips `is_reciprocal`: scores and
confidences are untouched. -/
theorem check_reciprocity_scores (storage : String → Option User) (user : User)
    (ms : List MatchResult) :
    (check_reciprocity storage user ms).map (fun m => (m.match_score, m.confidence))
      = ms.map (fun m => (m.match_score, m.confidence)) := by
  simp only [check_reciprocity, List.map_map]
  refine List.map_congr_left ?_
  intro m _
  simp only [Function.comp]
  rcases storage m.matched_user_id with _ | helper
  · rfl
  · by_cases h1 : helper.skills_needed = [] ∨ user.skills_offered = []
    · simp [h1]
    · by_cases h2 : can_help_back user helper <;> simp [h1, h2]

/-- C9: with `use_llm = false` the judgment adapter is never invoked
(zero judgment calls in the trace), and the returned matches are exactly
the truncated candidates, each carrying its embedding score as the match
score and the fixed confidence 0.7. -/
theorem find_matches_no_llm (storage : String → Option User)
    (helpers : List User) (needVec skillVec : String → Skill → List ℚ)
    (llmAnalyze : Candidate → Except String Analysis)
    (user_id : String) (top_k : Nat) :
    (find_matches_for_user storage helpers needVec skillVec llmAnalyze
      user_id top_k false).llmCalls = 0
    ∧ (find_matches_for_user storage helpers needVec skillVec llmAnalyze
        user_id top_k false).results.map (fun m => (m.match_score, m.confidence))
      = ((find_matches_for_user storage helpers needVec skillVec llmAnalyze
          user_id top_k false).candidates.take top_k).map
          (fun c => (c.embedding_score, (7 : ℚ) / 10)) := by
  rcases hu : storage user_id with _ | user
  · constructor <;> simp [find_matches_for_user, hu]
  · by_cases hn : user.skills_needed = []
    · constructor <;> simp [find_matches_for_user, hu, hn]
    · by_cases h1 : (retrieve_candidates user helpers needVec skillVec (top_k * 2)).1 = []
      · constructor <;> simp [find_matches_for_user, hu, hn, h1]
      · constructor
        · simp [find_matches_for_user, hu, hn, h1]
        · have hmain : (find_matches_for_user storage helpers needVec skillVec llmAnalyze
              user_id top_k false)
              = ⟨check_reciprocity storage user
                  (convert_candidates_to_matches
                    (retrieve_candidates user helpers needVec skillVec (top_k * 2)).1 top_k),
                 (retrieve_candidates user helpers needVec skillVec (top_k * 2)).1,
                 (retrieve_candidates user helpers needVec skillVec (top_k * 2)).2, 0⟩ := by
            simp [find_matches_for_user, hu, hn, h1]
          rw [hmain, check_reciprocity_scores]
          simp only [convert_candidates_to_matches, List.map_map]
          rfl

/-! ## Substring and stripping lemmas for the lexical tests -/

theorem startsList_iff (v : List Char) : ∀ s : List Char,
    startsList v s = true ↔ ∃ r, s = v ++ r := by
  induction v with
  | nil =>
    intro s
    simp only [startsList, List.nil_append, true_iff]
    exact ⟨s, rfl⟩
  | cons c cs ih =>
    intro s
    cases s with
    | nil => simp [startsList]
    | cons d ds =>
      simp only [startsList, Bool.and_eq_true, decide_eq_true_eq, ih,
        List.cons_append, List.cons.injEq]
      constructor
      · rintro ⟨rfl, r, rfl⟩
        exact ⟨r, rfl, rfl⟩
      · rintro ⟨r, rfl, rfl⟩
        exact ⟨rfl, r, rfl⟩

theorem containsList_iff (v : List Char) : ∀ s : List Char,
    containsList v s = true ↔ ∃ l r, s = l ++ v ++ r := by
  intro s
  induction s with
  | nil =>
    simp only [containsList, startsList_iff]
    constructor
    · rintro ⟨r, h⟩
      exact ⟨[], r, h⟩
    · rintro ⟨l, r, h⟩
      cases l with
      | nil => exact ⟨r, h⟩
      | cons x xs => simp at h
  | cons d ds ih =>
    simp only [containsList, Bool.or_eq_true, startsList_iff, ih]
    constructor
    · rintro (⟨r, h⟩ | ⟨l, r, h⟩)
      · exact ⟨[], r, by simpa using h⟩
      · exact ⟨d :: l, r, by simp [h]⟩
    · rintro ⟨l, r, h⟩
      cases l with
      | nil => exact Or.inl ⟨r, by simpa using h⟩
      | cons x xs =>
        simp only [List.cons_append, List.cons.injEq] at h
        exact Or.inr ⟨xs, r, h.2⟩

theorem contains_of_middle (v l r : List Char) :
    containsList v (l ++ v ++ r) = true :=
  (containsList_iff v _).2 ⟨l, r, rfl⟩

theorem dropWhile_append_middle (l t r : List Char) (c : Char)
    (hc : c.isWhitespace = false) :
    (l ++ (c :: t) ++ r).dropWhile Char.isWhitespace
      = l.dropWhile Char.isWhitespace ++ (c :: t) ++ r := by
  induction l with
  | nil => simp [List.dropWhile_cons, hc]
  | cons x xs ih =>
    by_cases hx : x.isWhitespace
    · simpa [List.dropWhile_cons, hx] using ih
    · simp [List.dropWhile_cons, hx]

theorem trimList_middle (l t r u : List Char) (c d : Char)
    (hrev : (c :: t).reverse = d :: u)
    (hc : c.isWhitespace = false) (hd : d.isWhitespace = false) :
    trimList (l ++ (c :: t) ++ r)
      = l.dropWhile Char.isWhitespace ++ (c :: t)
        ++ (r.reverse.dropWhile Char.isWhitespace).reverse := by
  rw [trimList, dropWhile_append_middle l t r c hc]
  have h2 : (l.dropWhile Char.isWhitespace ++ (c :: t) ++ r).reverse
      = r.reverse ++ (d :: u) ++ (l.dropWhile Char.isWhitespace).reverse := by
    rw [← hrev]
    simp [List.reverse_append, List.append_assoc]
  rw [h2, dropWhile_append_middle r.reverse u ((l.dropWhile Char.isWhitespace).reverse) d hd]
  have h3 : (d :: u).reverse = c :: t := by
    rw [← hrev, List.reverse_reverse]
  have h4 : u.reverse ++ [d] = c :: t := by simpa using h3
  simp only [List.reverse_append, List.reverse_cons, List.reverse_reverse,
    List.append_assoc, List.singleton_append, List.cons_append, List.nil_append]
  refine congrArg (fun x => List.dropWhile Char.isWhitespace l ++ x) ?_
  calc u.reverse ++ d :: (r.reverse.dropWhile Char.isWhitespace).reverse
      = (u.reverse ++ [d]) ++ (r.reverse.dropWhile Char.isWhitespace).reverse := by
        simp [List.append_assoc]
    _ = (c :: t) ++ (r.reverse.dropWhile Char.isWhitespace).reverse := by rw [h4]
    _ = c :: (t ++ (r.reverse.dropWhile Char.isWhitespace).reverse) := by simp

theorem containsList_trimList (v s : List Char)
    (hb : boundaryOk v = true) (h : containsList v s = true) :
    containsList v (trimList s) = true := by
  obtain ⟨l, r, rfl⟩ := (containsList_iff v s).1 h
  cases hv : v with
  | nil =>
    rw [hv] at hb
    simp [boundaryOk] at hb
  | cons c t =>
    subst hv
    rcases hrev : (c :: t).reverse with _ | ⟨d, u⟩
    · exact absurd hrev (by simp)
    · have hc : c.isWhitespace = false := by
        simp only [boundaryOk, Bool.and_eq_true, Bool.not_eq_true'] at hb
        simpa using hb.1.2
      have hd : d.isWhitespace = false := by
        simp only [boundaryOk, Bool.and_eq_true, Bool.not_eq_true'] at hb
        have := hb.2
        rw [hrev] at this
        simpa using this
      rw [trimList_middle l t r u c d hrev hc hd]
      exact contains_of_middle (c :: t) _ _

theorem any_contains_trim (vs : List String) (s : List Char)
    (hb : vs.all (fun k => boundaryOk k.toList) = true)
    (h : vs.any (fun k => containsList k.toList s) = true) :
    vs.any (fun k => containsList k.toList (trimList s)) = true := by
  rw [List.any_eq_true] at h ⊢
  obtain ⟨k, hk, hcon⟩ := h
  exact ⟨k, hk, containsList_trimList k.toList s ((List.all_eq_true.1 hb) k hk) hcon⟩

/-! ## Claim theorems: lexical compatibility of the two services -/

theorem keywords_match_implies_similar (need skill : String)
    (h : keywords_match need skill = true) :
    skills_are_similar need skill = true := by
  simp only [keywords_match, List.any_eq_true] at h
  obtain ⟨g, hg, hcond⟩ := h
  rw [Bool.and_eq_true] at hcond
  obtain ⟨h1, h2⟩ := hcond
  simp only [skills_are_similar]
  by_cases he : trimList (lowerList need) = trimList (lowerList skill)
  · rw [if_pos he]
  · rw [if_neg he, List.any_eq_true]
    have hmem : g.2 ∈ matching_skill_keywords.map (fun p => p.2) ∧
        g.2.all (fun k => boundaryOk k.toList) = true := by
      fin_cases hg <;> exact ⟨by simp [matching_skill_keywords], by decide⟩
    obtain ⟨g', hg', hgeq⟩ := List.mem_map.1 hmem.1
    refine ⟨g', hg', ?_⟩
    rw [Bool.and_eq_true, hgeq]
    exact ⟨any_contains_trim g.2 (lowerList need) hmem.2 h1,
           any_contains_trim g.2 (lowerList skill) hmem.2 h2⟩

/-- C7 counterexample: the two per-pair lexical tests are not the same
function.  On the pair ("analytics", "visualization") the reciprocity
scan's test succeeds (both names fall in its extra "data" keyword group)
while the cycle detector's test fails (no substring containment and no
shared group in its four-group table). -/
theorem lexical_tests_differ_cex :
    barter_pair_test "analytics" "visualization"
      ≠ recip_pair_test "analytics" "visualization"
    ∧ barter_pair_test "analytics" "visualization" = false
    ∧ recip_pair_test "analytics" "visualization" = true := by
  refine ⟨?_, by decide, by decide⟩
  decide

/-- C7 (amended): the cycle detector's per-pair test implies the
reciprocity scan's per-pair test — every pair the cycle detector accepts,
the reciprocity scan accepts — but not conversely: the reciprocity test
additionally accepts via a whitespace-stripped exact-match clause and via
its extra "data" keyword group. -/
theorem barter_pair_test_implies_recip (need skill : String)
    (h : barter_pair_test need skill = true) :
    recip_pair_test need skill = true := by
  simp only [barter_pair_test, Bool.or_eq_true] at h
  simp only [recip_pair_test, Bool.or_eq_true]
  rcases h with (h | h) | h
  · exact Or.inl (Or.inl h)
  · exact Or.inl (Or.inr h)
  · exact Or.inr (keywords_match_implies_similar need skill h)

/-- Witness for the amended C7 at a concrete pair accepted by both tests
through the shared "python" keyword group. -/
theorem barter_pair_test_implies_recip_witness :
    barter_pair_test "Django" "python" = true
    ∧ recip_pair_test "Django" "python" = true :=
  ⟨by decide, barter_pair_test_implies_recip "Django" "python" (by decide)⟩

end KDX
